import Mathlib

/-!
Shallow embedding of the incremental transcript-to-speech pipeline of the
accent-conversion relay: the incremental diff engine (`extractNewContent`,
`extractNewContentAdvanced`), the per-call segment state tracker
(`handleInterimTranscript`, `handleFinalTranscript`, `generateSentenceId`),
the generation-counter audio relay (`convertAndSendAudio`'s conversion-id
check), and the streaming TTS session manager (`addText`, `setupKeepalive`,
`handleStreamError`, `recreateStream`, `closeSession`).

JavaScript strings are modelled as Lean `String` (a list of characters),
JavaScript numbers holding 32-bit-coerced hashes as `Int` with explicit
wrapping, timestamps as `Nat` milliseconds, and STT confidence as `Option ℚ`.
-/

namespace AccentConv

/-- Whitespace test matching the character class `\s` of the JavaScript
regexes used by the source (space, tab, newline, carriage return, form feed,
vertical tab). -/
def isWsChar (c : Char) : Bool :=
  c = ' ' || c = '\t' || c = '\n' || c = '\r' || c = Char.ofNat 11 || c = Char.ofNat 12

/-- Remove trailing whitespace characters from a character list. -/
def dropTrailingWs : List Char → List Char
  | [] => []
  | c :: rest =>
    let r := dropTrailingWs rest
    if r = [] ∧ isWsChar c then [] else c :: r

/-- Model of JavaScript `String.prototype.trim()` on character lists. -/
def jsTrimList (l : List Char) : List Char :=
  dropTrailingWs (l.dropWhile isWsChar)

/-- Model of JavaScript `String.prototype.trim()`. -/
def jsTrim (s : String) : String :=
  String.mk (jsTrimList s.data)

/-- Accumulating splitter: cuts a character list into maximal runs of
non-whitespace characters (the accumulator holds the current run reversed). -/
def tokensAux (cur : List Char) : List Char → List String
  | [] => if cur = [] then [] else [String.mk cur.reverse]
  | c :: rest =>
    if isWsChar c then
      if cur = [] then tokensAux [] rest
      else String.mk cur.reverse :: tokensAux [] rest
    else tokensAux (c :: cur) rest

/-- Model of the `text.trim().split(/\s+/)` idiom of the source: JavaScript
returns `[""]` when the trimmed string is empty and the list of
whitespace-separated words otherwise. -/
def jsSplitWs (s : String) : List String :=
  let t := jsTrim s
  if t = "" then [""] else tokensAux [] t.data

/-- ASCII lowercase conversion, the effect of `toLowerCase()` on the
transcript alphabet. -/
def jsToLower (s : String) : String :=
  String.mk (s.data.map Char.toLower)

/-- Character class `[\w'-]` of `normalizeWord`: word characters
(letters, digits, underscore), apostrophe, hyphen. -/
def isWordKeepChar (c : Char) : Bool :=
  ('a' ≤ c && c ≤ 'z') || ('A' ≤ c && c ≤ 'Z') || ('0' ≤ c && c ≤ '9') ||
    c = '_' || c = Char.ofNat 39 || c = '-'

/-- `normalizeWord` of the segment tracker:
`word.toLowerCase().replace(/[^\w'-]/g, "").trim()`. -/
def normalizeWord (w : String) : String :=
  jsTrim (String.mk ((jsToLower w).data.filter isWordKeepChar))

/-- Longest common prefix length of two token lists, comparing normalized
tokens and stopping at the first mismatch or empty normalization, as the
`for` loop of `extractNewContent` does. -/
def commonPrefixLen : List String → List String → Nat
  | c :: cs, p :: ps =>
    if normalizeWord c = normalizeWord p ∧ normalizeWord c ≠ "" then
      commonPrefixLen cs ps + 1
    else 0
  | _, _ => 0

/-- The incremental diff engine `extractNewContent(currentText, previousText)`
of the segment tracker: returns `currentText` when the previous snapshot is
empty or whitespace, otherwise the trailing tokens of `currentText` past the
longest common normalized-token prefix (empty when nothing new). -/
def extractNewContent (currentText previousText : String) : String :=
  if jsTrim previousText = "" then currentText
  else
    let currentWords := jsSplitWs currentText
    let previousWords := jsSplitWs previousText
    let k := commonPrefixLen currentWords previousWords
    if currentWords.length ≤ previousWords.length then
      if k < currentWords.length then
        " ".intercalate (currentWords.drop k)
      else ""
    else
      let newWords := currentWords.drop k
      if newWords.length > 0 then " ".intercalate newWords else ""

/-- Character class `[a-zA-Z0-9'-]` of the advanced diff's word cleaning. -/
def isAdvKeepChar (c : Char) : Bool :=
  ('a' ≤ c && c ≤ 'z') || ('A' ≤ c && c ≤ 'Z') || ('0' ≤ c && c ≤ '9') ||
    c = Char.ofNat 39 || c = '-'

/-- Word cleaning of `extractNewContentAdvanced`:
`word.toLowerCase().replace(/[^a-zA-Z0-9'-]/g, "")`. -/
def cleanWordAdv (w : String) : String :=
  String.mk ((jsToLower w).data.filter isAdvKeepChar)

/-- Common-prefix scan of `extractNewContentAdvanced`, over cleaned words. -/
def commonPrefixLenAdv : List String → List String → Nat
  | c :: cs, p :: ps =>
    if cleanWordAdv c = cleanWordAdv p ∧ cleanWordAdv c ≠ "" then
      commonPrefixLenAdv cs ps + 1
    else 0
  | _, _ => 0

/-- The advanced diff `extractNewContentAdvanced(currentText, previousText)`
of the call handler: new-word suffix first, then the shortened case, then the
equal-length correction case. -/
def extractNewContentAdvanced (currentText previousText : String) : String :=
  if jsTrim previousText = "" then currentText
  else
    let cur := jsSplitWs currentText
    let prev := jsSplitWs previousText
    let k := commonPrefixLenAdv cur prev
    let newWords := cur.drop k
    if newWords.length > 0 then " ".intercalate newWords
    else if cur.length < prev.length then ""
    else if cur.length = prev.length ∧ k < cur.length then
      " ".intercalate (cur.drop k)
    else ""

/-- Character class `[\w\s]` of `generateSentenceId`'s normalization. -/
def isIdKeepChar (c : Char) : Bool :=
  ('a' ≤ c && c ≤ 'z') || ('A' ≤ c && c ≤ 'Z') || ('0' ≤ c && c ≤ '9') ||
    c = '_' || isWsChar c

/-- Collapse every maximal whitespace run to one space, the effect of
`replace(/\s+/g, " ")`; the boolean records whether the previous character
was whitespace. -/
def collapseWsAux : Bool → List Char → List Char
  | _, [] => []
  | prevWs, c :: rest =>
    if isWsChar c then
      if prevWs then collapseWsAux true rest
      else ' ' :: collapseWsAux true rest
    else c :: collapseWsAux false rest

/-- Coerce an integer to the signed 32-bit range, the effect of JavaScript's
`hash & hash` and of `<< 5` coercion on the rolling hash. -/
def toInt32 (n : Int) : Int :=
  let m := n % 4294967296
  if m < 2147483648 then m else m - 4294967296

/-- One step of the rolling hash of `generateSentenceId`:
`hash = ((hash << 5) - hash) + charCode; hash = hash & hash`. -/
def hashStep (h : Int) (c : Char) : Int :=
  toInt32 (toInt32 (h * 32) - h + c.toNat)

/-- `generateSentenceId(text)`: normalize (lowercase, drop characters outside
`[\w\s]`, collapse whitespace, trim) and pair the rolling hash with the
normalized length; the JavaScript source renders this pair as the string
`hash_length`, which identifies the pair injectively. -/
def generateSentenceId (text : String) : Int × Nat :=
  let normalized :=
    jsTrim (String.mk (collapseWsAux false ((jsToLower text).data.filter isIdKeepChar)))
  (normalized.data.foldl hashStep 0, normalized.length)

/-- One text delta emitted toward synthesis. -/
structure Delta where
  text : String
  isFinal : Bool
  deriving Repr, DecidableEq

/-- `sendToTTS(content, isFinal)`: drops empty or whitespace-only content,
otherwise forwards the trimmed content as one delta. -/
def sendToTTS (content : String) (isFinal : Bool) : List Delta :=
  if jsTrim content = "" then [] else [⟨jsTrim content, isFinal⟩]

/-- Per-connection segment state of the tracker (the per-call mutable
variables of the WebSocket handler). `completedSentences` models the
insertion-ordered JavaScript `Set` of sentence ids. -/
structure SegmentState where
  isInitialPhaseComplete : Bool
  interimBuffer : String
  currentSentenceBuffer : String
  previousInterimText : String
  cumulativeSentContent : String
  lastConvertedText : String
  completedSentences : List (Int × Nat)
  deriving Repr, DecidableEq

/-- Fresh per-connection state at stream start. -/
def initialSegmentState : SegmentState :=
  ⟨false, "", "", "", "", "", []⟩

/-- `resetSegmentState()`: clear the per-segment fields, keeping the
dedup set and the last converted text. -/
def resetSegmentState (st : SegmentState) : SegmentState :=
  { st with isInitialPhaseComplete := false, interimBuffer := "",
            currentSentenceBuffer := "", previousInterimText := "",
            cumulativeSentContent := "" }

/-- Cap of the dedup set: when more than 10 ids are present, delete the
oldest so only the most recent 10 remain
(`Array.from(set).slice(0, -10)` removed). -/
def capSentences (l : List (Int × Nat)) : List (Int × Nat) :=
  if l.length > 10 then l.drop (l.length - 10) else l

/-- `handleFinalTranscript(transcript)`: trim, dedup by sentence id, cap the
dedup set, diff against the cumulative sent content, emit the delta as final
when non-empty, update tracking, and reset the segment state. Returns the
new state and the emitted deltas. -/
def handleFinalTranscript (st : SegmentState) (transcript : String) :
    SegmentState × List Delta :=
  let clean := jsTrim transcript
  if clean = "" then (st, [])
  else
    let sid := generateSentenceId clean
    if sid ∈ st.completedSentences then (st, [])
    else
      let completed := capSentences (st.completedSentences ++ [sid])
      let newContent := extractNewContent clean st.cumulativeSentContent
      let st1 := { st with completedSentences := completed,
                           lastConvertedText := clean,
                           cumulativeSentContent := clean }
      if jsTrim newContent ≠ "" then
        (resetSegmentState st1, sendToTTS newContent true)
      else
        (resetSegmentState st1, [])

/-- `handleInterimTranscript(transcript)`: in the initial phase emit the whole
trimmed fragment at once and start cumulative tracking; afterwards diff
against the interim buffer and emit only the new content. -/
def handleInterimTranscript (st : SegmentState) (transcript : String) :
    SegmentState × List Delta :=
  let clean := jsTrim transcript
  if clean = "" then (st, [])
  else if ¬st.isInitialPhaseComplete ∧ (jsSplitWs clean).length ≥ 1 then
    ({ st with isInitialPhaseComplete := true, interimBuffer := clean,
               currentSentenceBuffer := clean, cumulativeSentContent := clean },
     sendToTTS clean false)
  else
    let newContent := extractNewContent clean st.interimBuffer
    if jsTrim newContent ≠ "" then
      ({ st with interimBuffer := clean, currentSentenceBuffer := clean,
                 cumulativeSentContent :=
                   if st.cumulativeSentContent ≠ "" then clean else newContent },
       sendToTTS newContent false)
    else (st, [])

/-- Per-connection state of the advanced call handler (server.js), whose
cumulative tracking variable is `lastConvertedText`. -/
structure ServerState where
  previousInterimText : String
  isInitialPhaseComplete : Bool
  lastConvertedText : String
  deriving Repr, DecidableEq

/-- The acceptance check `confidence && confidence > 0.7` on a final event:
a missing or zero (falsy) confidence fails, as does one at or below 0.7. -/
def confidenceAccepted : Option ℚ → Bool
  | none => false
  | some q => decide (q ≠ 0) && decide ((7 : ℚ)/10 < q)

/-- Final-event branch of the advanced call handler: reset the interim phase
fields, then process the final transcript only when it is non-blank and its
confidence passes the 0.7 threshold; the diff against `lastConvertedText`
is emitted as a final delta when non-empty, and `lastConvertedText` is
updated to the full final transcript in the accepted cases only. -/
def processServerFinal (st : ServerState) (transcript : String)
    (confidence : Option ℚ) : ServerState × List Delta :=
  let st0 := { st with previousInterimText := "", isInitialPhaseComplete := false }
  if transcript ≠ "" ∧ jsTrim transcript ≠ "" ∧ confidenceAccepted confidence then
    let newContent := extractNewContentAdvanced transcript st0.lastConvertedText
    if newContent ≠ "" ∧ jsTrim newContent ≠ "" then
      ({ st0 with lastConvertedText := transcript }, [⟨newContent, true⟩])
    else
      ({ st0 with lastConvertedText := transcript }, [])
  else (st0, [])

/-- Per-connection conversion generation counter
(`ws.conversionState.current`). -/
structure ConversionState where
  current : Nat
  deriving Repr, DecidableEq

/-- Submission half of `convertAndSendAudio`: the counter is incremented
before the request id is assigned
(`const currentConversionId = ++ws.conversionState.current`). -/
def submitConversion (cs : ConversionState) : ConversionState × Nat :=
  (⟨cs.current + 1⟩, cs.current + 1)

/-- Response half of `convertAndSendAudio`: an audio chunk is written to the
transport only when its conversion id still equals the current counter
(`if (currentConversionId !== ws.conversionState.current) return`). -/
def shouldSendAudio (cs : ConversionState) (conversionId : Nat) : Bool :=
  conversionId == cs.current

/-- Responses arriving in order; each is checked independently against the
counter (which responses never mutate), so the written chunks are the
arrivals passing the check, in arrival order. -/
def handleResponses (cs : ConversionState) (arrivals : List Nat) : List Nat :=
  match arrivals with
  | [] => []
  | id :: rest =>
    if shouldSendAudio cs id then id :: handleResponses cs rest
    else handleResponses cs rest

/-- Frames written to one underlying streaming-synthesize call: the
configuration handshake, a text input, or the single-space keepalive input. -/
inductive Frame where
  | config : Frame
  | text : String → Frame
  | keepalive : Frame
  deriving Repr, DecidableEq

/-- Provider stream error as classified by `handleStreamError`: an optional
gRPC status code and a message. -/
structure TTSError where
  code : Option Int
  message : String
  deriving Repr, DecidableEq

/-- Events emitted by the session manager that the claims observe. -/
inductive TTSEvent where
  | errorEmitted : TTSEvent
  | sessionEnded : TTSEvent
  | reconnectScheduled : Nat → TTSEvent
  deriving Repr, DecidableEq

/-- `TTS_CONFIG.streaming.keepaliveThresholdMs`. -/
def keepaliveThresholdMs : Nat := 2000

/-- `TTS_CONFIG.streaming.keepaliveIntervalMs`. -/
def keepaliveIntervalMs : Nat := 3000

/-- `TTS_CONFIG.streaming.maxReconnectAttempts`. -/
def maxReconnectAttempts : Nat := 3

/-- `TTS_CONFIG.streaming.reconnectBackoffMs`. -/
def reconnectBackoffMs : Nat := 1000

/-- One streaming TTS session (`sessionData` of `StreamingTTSService`),
together with the frames written so far to its current underlying stream.
`inRegistry` models membership of `activeStreams`. -/
structure TTSSession where
  isActive : Bool
  isConfigured : Bool
  hasStream : Bool
  inRegistry : Bool
  lastTextTime : Nat
  lastKeepaliveTime : Nat
  reconnectAttempts : Nat
  stream : List Frame
  deriving Repr, DecidableEq

/-- `sendInitialConfig(sessionId, config)`: looked up in the registry; writes
the configuration frame and marks the session configured, unless the session
is gone or already configured. -/
def sendInitialConfig (s : TTSSession) : TTSSession :=
  if ¬s.inRegistry ∨ s.isConfigured then s
  else { s with isConfigured := true, stream := s.stream ++ [Frame.config] }

/-- Session produced by `createStreamingSession`: stored active and
unconfigured with a fresh stream, then `sendInitialConfig` runs. -/
def initialSession (t0 : Nat) : TTSSession :=
  sendInitialConfig
    ⟨true, false, true, true, t0, t0, 0, []⟩

/-- Substring containment test modelling `String.prototype.includes`. -/
def listHasRun : List Char → List Char → Bool
  | [], _ => true
  | _ :: _, [] => false
  | p :: ps, c :: cs => p == c && listHasRun ps cs

/-- Substring search scanning every start position. -/
def listContains (pat : List Char) : List Char → Bool
  | [] => pat.isEmpty
  | c :: cs => listHasRun pat (c :: cs) || listContains pat cs

/-- `haystack.includes(needle)`. -/
def strContains (haystack needle : String) : Bool :=
  listContains needle.data haystack.data

/-- Error classification of `handleStreamError`: gRPC ABORTED (10) or
DEADLINE_EXCEEDED (4), or a message mentioning a stream abort or timeout. -/
def isRecoverableError (e : TTSError) : Bool :=
  e.code == some 10 || e.code == some 4 ||
    strContains e.message "Stream aborted" || strContains e.message "timeout"

/-- `cleanupSession`: clear the keepalive timer, mark inactive, remove from
the registry. -/
def cleanupSession (s : TTSSession) : TTSSession :=
  { s with isActive := false, inRegistry := false }

/-- `handleStreamError(sessionId, error, sessionData)`: a recoverable error
under the attempt bound increments the attempt counter and schedules a
reconnect after `reconnectBackoffMs` times the new attempt number; otherwise
the error is emitted once and the session is cleaned up. -/
def handleStreamError (s : TTSSession) (e : TTSError) :
    TTSSession × List TTSEvent :=
  if isRecoverableError e ∧ s.reconnectAttempts < maxReconnectAttempts then
    ({ s with reconnectAttempts := s.reconnectAttempts + 1 },
     [TTSEvent.reconnectScheduled (reconnectBackoffMs * (s.reconnectAttempts + 1))])
  else
    (cleanupSession s, [TTSEvent.errorEmitted, TTSEvent.sessionEnded])

/-- `recreateStream(sessionId, sessionData)`: on an active session, replace
the underlying stream with a fresh unconfigured one, stamp both activity
times with the current time, and resend the configuration frame. -/
def recreateStream (now : Nat) (s : TTSSession) : TTSSession :=
  if ¬s.isActive then s
  else
    sendInitialConfig
      { s with hasStream := true, isConfigured := false,
               lastTextTime := now, lastKeepaliveTime := now, stream := [] }

/-- Punctuation test of the regex `[.!?]$`. -/
def isPunctChar (c : Char) : Bool :=
  c = '.' || c = '!' || c = '?'

/-- Whether the string ends with sentence punctuation (`/[.!?]$/.test`). -/
def endsWithPunct (s : String) : Bool :=
  match s.data.getLast? with
  | some c => isPunctChar c
  | none => false

/-- JavaScript `text.split(sep)` for a single-character separator, with
empty fields preserved. -/
def splitCharAux (sep : Char) : List Char → List Char → List String
  | cur, [] => [String.mk cur.reverse]
  | cur, c :: rest =>
    if c = sep then String.mk cur.reverse :: splitCharAux sep [] rest
    else splitCharAux sep (c :: cur) rest

/-- `text.split(" ")` (a literal single space, so doubled spaces yield empty
fields that still count toward the length). -/
def splitSpace (s : String) : List String :=
  splitCharAux ' ' [] s.data

/-- State machine for `replace(/([.!?])\s+/g, "$1 ")`: state 0 scans
normally, state 1 has just emitted punctuation, state 2 is consuming a
whitespace run whose single replacement space was already emitted. -/
def collapseAfterPunctAux : Nat → List Char → List Char
  | _, [] => []
  | 0, c :: rest =>
    if isPunctChar c then c :: collapseAfterPunctAux 1 rest
    else c :: collapseAfterPunctAux 0 rest
  | 1, c :: rest =>
    if isWsChar c then ' ' :: collapseAfterPunctAux 2 rest
    else if isPunctChar c then c :: collapseAfterPunctAux 1 rest
    else c :: collapseAfterPunctAux 0 rest
  | _, c :: rest =>
    if isWsChar c then collapseAfterPunctAux 2 rest
    else if isPunctChar c then c :: collapseAfterPunctAux 1 rest
    else c :: collapseAfterPunctAux 0 rest

/-- `replace(/([.!?])\s+/g, "$1 ")`: collapse whitespace runs that directly
follow sentence punctuation to a single space. -/
def collapseAfterPunct (s : String) : String :=
  String.mk (collapseAfterPunctAux 0 s.data)

/-- `optimizeTextForStreaming(text)`: trim; append a period when the text
does not already end with sentence punctuation and has at least three
space-separated fields; when longer than 20 characters, collapse whitespace
after sentence punctuation. -/
def optimizeTextForStreaming (text : String) : String :=
  let o1 := jsTrim text
  let o2 := if ¬endsWithPunct o1 ∧ (splitSpace o1).length ≥ 3 then o1 ++ "." else o1
  if o2.length > 20 then collapseAfterPunct o2 else o2

/-- `addText(sessionId, text)`: silently ignored when the session is absent
or inactive or the text is blank; otherwise the optimized text is written as
a text frame only when the stream exists and is configured, stamping
`lastTextTime` and resetting the reconnect counter. -/
def addText (now : Nat) (s : TTSSession) (txt : String) : TTSSession :=
  if ¬s.inRegistry ∨ ¬s.isActive then s
  else if jsTrim txt = "" then s
  else if s.hasStream ∧ s.isConfigured then
    { s with stream := s.stream ++ [Frame.text (optimizeTextForStreaming txt)],
             lastTextTime := now,
             reconnectAttempts := 0 }
  else s

/-- One firing of the keepalive interval of `setupKeepalive`: inactive
sessions do nothing (the timer clears itself); past both elapsed-time
thresholds, either the single-space keepalive frame is written and only
`lastKeepaliveTime` stamped, or — when the stream is unavailable — a
recreation is attempted instead. The boolean reports whether a keepalive
frame was written. -/
def keepaliveTick (now : Nat) (s : TTSSession) : TTSSession × Bool :=
  if ¬s.isActive then (s, false)
  else if now - s.lastTextTime > keepaliveThresholdMs ∧
          now - s.lastKeepaliveTime > keepaliveThresholdMs then
    if s.hasStream ∧ s.isConfigured then
      ({ s with lastKeepaliveTime := now, stream := s.stream ++ [Frame.keepalive] },
       true)
    else (recreateStream now s, false)
  else (s, false)

/-- `closeSession(sessionId)`: absent sessions are ignored; otherwise the
session is marked inactive, the stream is ended without further writes, and
the cleanup removes it from the registry. -/
def closeSession (s : TTSSession) : TTSSession :=
  if ¬s.inRegistry then s
  else cleanupSession { s with isActive := false }

/-- External happenings driving one session's lifecycle. -/
inductive SessionOp where
  | opAddText : Nat → String → SessionOp
  | opKeepalive : Nat → SessionOp
  | opError : TTSError → SessionOp
  | opRecreate : Nat → SessionOp
  | opClose : SessionOp
  | opEnd : SessionOp
  deriving Repr, DecidableEq

/-- Apply one lifecycle happening to a session. -/
def applyOp (s : TTSSession) : SessionOp → TTSSession
  | SessionOp.opAddText now txt => addText now s txt
  | SessionOp.opKeepalive now => (keepaliveTick now s).1
  | SessionOp.opError e => (handleStreamError s e).1
  | SessionOp.opRecreate now => recreateStream now s
  | SessionOp.opClose => closeSession s
  | SessionOp.opEnd => cleanupSession s

/-- Run a sequence of lifecycle happenings. -/
def runOps (s : TTSSession) (ops : List SessionOp) : TTSSession :=
  ops.foldl applyOp s

/-- Whether a text or keepalive frame occurs in the write log before any
configuration frame. -/
def textBeforeConfig : List Frame → Bool
  | [] => false
  | Frame.config :: _ => false
  | Frame.text _ :: _ => true
  | Frame.keepalive :: _ => true

/-! ### Helper lemmas about trimming, tokenization and the dedup set -/

theorem dropWhile_head_false {α : Type} (p : α → Bool) (l : List α) :
    ∀ hd tl, l.dropWhile p = hd :: tl → p hd = false := by
  induction l with
  | nil => simp [List.dropWhile]
  | cons c rest ih =>
    intro hd tl h
    rw [List.dropWhile_cons] at h
    split at h
    · exact ih hd tl h
    · next hc =>
      cases h
      simpa using hc

theorem dropWhile_eq_self_of_head {α : Type} (p : α → Bool) (l : List α)
    (h : ∀ hd tl, l = hd :: tl → p hd = false) : l.dropWhile p = l := by
  cases l with
  | nil => rfl
  | cons c rest => simp [List.dropWhile_cons, h c rest rfl]

theorem dropTrailingWs_cons_head (hd : Char) (tl : List Char) :
    dropTrailingWs (hd :: tl) = [] ∨ ∃ r, dropTrailingWs (hd :: tl) = hd :: r := by
  simp only [dropTrailingWs]
  split
  · left; rfl
  · right; exact ⟨_, rfl⟩

theorem dropTrailingWs_idem (l : List Char) :
    dropTrailingWs (dropTrailingWs l) = dropTrailingWs l := by
  induction l with
  | nil => rfl
  | cons c rest ih =>
    simp only [dropTrailingWs]
    split
    · rfl
    · next hcond =>
      simp only [dropTrailingWs, ih]
      rw [if_neg hcond]

theorem jsTrimList_head_false (l : List Char) (hd : Char) (tl : List Char)
    (h : jsTrimList l = hd :: tl) : isWsChar hd = false := by
  unfold jsTrimList at h
  cases hm : l.dropWhile isWsChar with
  | nil => rw [hm] at h; simp [dropTrailingWs] at h
  | cons c rest =>
    rw [hm] at h
    have hc : isWsChar c = false := dropWhile_head_false isWsChar l c rest hm
    rcases dropTrailingWs_cons_head c rest with h2 | ⟨r, h2⟩
    · rw [h2] at h; cases h
    · rw [h2] at h; cases h; exact hc

theorem jsTrimList_idem (l : List Char) :
    jsTrimList (jsTrimList l) = jsTrimList l := by
  have h1 : (jsTrimList l).dropWhile isWsChar = jsTrimList l :=
    dropWhile_eq_self_of_head _ _ (fun hd tl h => jsTrimList_head_false l hd tl h)
  rw [show jsTrimList (jsTrimList l)
        = dropTrailingWs ((jsTrimList l).dropWhile isWsChar) from rfl, h1]
  exact dropTrailingWs_idem (l.dropWhile isWsChar)

theorem jsTrim_idem (s : String) : jsTrim (jsTrim s) = jsTrim s := by
  simp [jsTrim, jsTrimList_idem]

theorem tokensAux_ne_nil_of_cur (l : List Char) :
    ∀ cur : List Char, cur ≠ [] → tokensAux cur l ≠ [] := by
  induction l with
  | nil => intro cur h; simp [tokensAux, h]
  | cons c rest ih =>
    intro cur h
    by_cases hws : isWsChar c
    · simp [tokensAux, hws, h]
    · have h2 := ih (c :: cur) (by simp)
      simpa [tokensAux, hws] using h2

theorem jsSplitWs_ne_nil (s : String) : jsSplitWs s ≠ [] := by
  unfold jsSplitWs
  simp only
  split
  · simp
  · next ht =>
    cases hm : (jsTrim s).data with
    | nil =>
      exact absurd (by apply String.ext; simpa using hm) ht
    | cons c rest =>
      have hc : isWsChar c = false := by
        apply jsTrimList_head_false s.data c rest
        simpa [jsTrim] using hm
      have h2 := tokensAux_ne_nil_of_cur rest [c] (by simp)
      simpa [tokensAux, hc] using h2

theorem commonPrefixLen_le (a : List String) :
    ∀ b : List String, commonPrefixLen a b ≤ a.length := by
  induction a with
  | nil => intro b; cases b <;> simp [commonPrefixLen]
  | cons c cs ih =>
    intro b
    cases b with
    | nil => simp [commonPrefixLen]
    | cons p ps =>
      simp only [commonPrefixLen, List.length_cons]
      split
      · exact Nat.succ_le_succ (ih ps)
      · simp

theorem commonPrefixLen_self (l : List String)
    (h : ∀ w ∈ l, normalizeWord w ≠ "") : commonPrefixLen l l = l.length := by
  induction l with
  | nil => rfl
  | cons c cs ih =>
    simp only [commonPrefixLen, List.length_cons]
    rw [if_pos ⟨trivial, h c (by simp)⟩]
    rw [ih (fun w hw => h w (by simp [hw]))]

theorem mem_capSentences_append (l : List (Int × Nat)) (x : Int × Nat) :
    x ∈ capSentences (l ++ [x]) := by
  unfold capSentences
  split
  · next hlen =>
    rw [List.drop_append_of_le_length (by simp at hlen ⊢; try omega)]
    simp
  · simp

/-! ### Claim C1: diff idempotence -/

/-- C1 (amended): `extractNewContent(s, s)` returns the empty string for
every `s` that is empty, or whose trim is non-empty and whose every
whitespace token normalizes to a non-empty word; whitespace-only inputs are
returned unchanged and tokens normalizing to empty (pure punctuation) are
re-emitted, so the unrestricted claim fails. -/
theorem C1_diff_idempotent (s : String)
    (h : s = "" ∨ (jsTrim s ≠ "" ∧ ∀ w ∈ jsSplitWs s, normalizeWord w ≠ "")) :
    extractNewContent s s = "" := by
  rcases h with h | ⟨h1, h2⟩
  · subst h; rfl
  · unfold extractNewContent
    rw [if_neg h1]
    simp [commonPrefixLen_self (jsSplitWs s) h2]

/-- C1 counterexample: diffing a whitespace-only snapshot against itself
returns it unchanged, and diffing a punctuation-only snapshot against itself
re-emits the whole token; both inputs are non-empty strings, refuting
`extractNewContent(s, s) = ""` for every `s`. -/
theorem C1_counterexample :
    extractNewContent " " " " = " " ∧
    extractNewContent "!!!" "!!!" = "!!!" ∧
    (" " : String) ≠ "" ∧ ("!!!" : String) ≠ "" := by decide

/-- C1 witness: the amended theorem applied to a concrete sentence. -/
theorem C1_witness : extractNewContent "hello world." "hello world." = "" :=
  C1_diff_idempotent "hello world." (Or.inr ⟨by decide, by decide⟩)

/-! ### Claim C10: the delta is a trailing segment of the current tokens -/

/-- C10: for a previous snapshot that is not empty or whitespace-only, the
diff returns the empty string or the whitespace tokens of `current` from
some index onward joined by single spaces — a contiguous trailing segment of
the current snapshot's own tokens. -/
theorem C10_delta_is_tail (current previous : String)
    (h : jsTrim previous ≠ "") :
    extractNewContent current previous = "" ∨
    ∃ k, k ≤ (jsSplitWs current).length ∧
      extractNewContent current previous
        = " ".intercalate ((jsSplitWs current).drop k) := by
  unfold extractNewContent
  rw [if_neg h]
  dsimp only
  by_cases h1 : (jsSplitWs current).length ≤ (jsSplitWs previous).length
  · rw [if_pos h1]
    by_cases h2 : commonPrefixLen (jsSplitWs current) (jsSplitWs previous)
        < (jsSplitWs current).length
    · rw [if_pos h2]
      exact Or.inr ⟨_, Nat.le_of_lt h2, rfl⟩
    · rw [if_neg h2]
      exact Or.inl rfl
  · rw [if_neg h1]
    by_cases h3 : ((jsSplitWs current).drop
        (commonPrefixLen (jsSplitWs current) (jsSplitWs previous))).length > 0
    · rw [if_pos h3]
      exact Or.inr ⟨_, commonPrefixLen_le _ _, rfl⟩
    · rw [if_neg h3]
      exact Or.inl rfl

/-- C10 witness: the theorem applied to a concrete growing transcript. -/
theorem C10_witness :
    extractNewContent "hello there" "hello" = "" ∨
    ∃ k, k ≤ (jsSplitWs "hello there").length ∧
      extractNewContent "hello there" "hello"
        = " ".intercalate ((jsSplitWs "hello there").drop k) :=
  C10_delta_is_tail "hello there" "hello" (by decide)

/-! ### Claim C2: final-transcript deduplication -/

/-- C2 (amended): resubmitting the same final transcript for one segment is
skipped entirely — the second call emits no delta and leaves the state
unchanged — and a single submission emits at most one delta (none when the
final content is already covered by the cumulative sent content, which
refutes the unqualified claim of exactly one delta). -/
theorem C2_final_dedup (st : SegmentState) (t : String) (h : jsTrim t ≠ "") :
    handleFinalTranscript (handleFinalTranscript st t).1 t
        = ((handleFinalTranscript st t).1, []) ∧
    (handleFinalTranscript st t).2.length ≤ 1 := by
  have key : ∀ st' : SegmentState,
      generateSentenceId (jsTrim t) ∈ st'.completedSentences →
      handleFinalTranscript st' t = (st', []) := by
    intro st' hmem
    unfold handleFinalTranscript
    rw [if_neg h]
    dsimp only
    rw [if_pos hmem]
  by_cases hmem : generateSentenceId (jsTrim t) ∈ st.completedSentences
  · have h1 : handleFinalTranscript st t = (st, []) := key st hmem
    rw [h1]
    exact ⟨key st hmem, by simp⟩
  · have h1 : (handleFinalTranscript st t).1.completedSentences
        = capSentences (st.completedSentences ++ [generateSentenceId (jsTrim t)]) ∧
        (handleFinalTranscript st t).2.length ≤ 1 := by
      unfold handleFinalTranscript
      rw [if_neg h]
      dsimp only
      rw [if_neg hmem]
      split
      · refine ⟨rfl, ?_⟩
        unfold sendToTTS
        split <;> simp
      · exact ⟨rfl, by simp⟩
    exact ⟨key _ (h1.1 ▸ mem_capSentences_append _ _), h1.2⟩

/-- C2 counterexample: after the interim "hello" is emitted, submitting the
final "hello" twice yields zero emitted deltas in total (the content is
already covered, and the duplicate is skipped), not exactly one. -/
theorem C2_counterexample :
    (handleInterimTranscript initialSegmentState "hello").2
        = [⟨"hello", false⟩] ∧
    (handleFinalTranscript
        (handleInterimTranscript initialSegmentState "hello").1 "hello").2 = [] ∧
    (handleFinalTranscript
        (handleFinalTranscript
          (handleInterimTranscript initialSegmentState "hello").1 "hello").1
        "hello").2 = [] := by decide

/-- C2 witness: the dedup theorem applied to a concrete final transcript. -/
theorem C2_witness :
    handleFinalTranscript
        (handleFinalTranscript initialSegmentState "good morning").1 "good morning"
      = ((handleFinalTranscript initialSegmentState "good morning").1, []) ∧
    (handleFinalTranscript initialSegmentState "good morning").2.length ≤ 1 :=
  C2_final_dedup initialSegmentState "good morning" (by decide)

/-! ### Claim C3: segment reset after a processed final -/

/-- C3: processing a non-blank, non-duplicate final transcript resets the
per-segment state (previous interim cleared, initial phase reopened,
cumulative content cleared), and the next non-blank interim is emitted
whole as the first fragment of a new segment. -/
theorem C3_segment_reset (st : SegmentState) (t u : String)
    (ht : jsTrim t ≠ "")
    (hd : generateSentenceId (jsTrim t) ∉ st.completedSentences)
    (hu : jsTrim u ≠ "") :
    (handleFinalTranscript st t).1.previousInterimText = "" ∧
    (handleFinalTranscript st t).1.isInitialPhaseComplete = false ∧
    (handleFinalTranscript st t).1.cumulativeSentContent = "" ∧
    (handleInterimTranscript (handleFinalTranscript st t).1 u).2
        = [⟨jsTrim u, false⟩] := by
  have hfields : (handleFinalTranscript st t).1.previousInterimText = "" ∧
      (handleFinalTranscript st t).1.isInitialPhaseComplete = false ∧
      (handleFinalTranscript st t).1.cumulativeSentContent = "" := by
    unfold handleFinalTranscript
    rw [if_neg ht]
    dsimp only
    rw [if_neg hd]
    split <;> exact ⟨rfl, rfl, rfl⟩
  refine ⟨hfields.1, hfields.2.1, hfields.2.2, ?_⟩
  unfold handleInterimTranscript
  rw [if_neg hu]
  dsimp only
  rw [if_pos ⟨by simp [hfields.2.1], List.length_pos.mpr (jsSplitWs_ne_nil _)⟩]
  dsimp only
  simp [sendToTTS, jsTrim_idem, hu]

/-- C3 witness: the reset theorem applied to one concrete final transcript
followed by one concrete fresh interim. -/
theorem C3_witness :
    (handleFinalTranscript initialSegmentState "good evening").1.previousInterimText = "" ∧
    (handleFinalTranscript initialSegmentState "good evening").1.isInitialPhaseComplete
        = false ∧
    (handleFinalTranscript initialSegmentState "good evening").1.cumulativeSentContent
        = "" ∧
    (handleInterimTranscript
        (handleFinalTranscript initialSegmentState "good evening").1 "fresh words").2
      = [⟨jsTrim "fresh words", false⟩] :=
  C3_segment_reset initialSegmentState "good evening" "fresh words"
    (by decide) (by decide) (by decide)

/-! ### Claim C4: low-confidence finals -/

/-- C4 (amended): a final event whose provided confidence is at or below the
0.7 threshold emits no delta and surfaces no error, and resets only the
interim-phase fields; contrary to the claim, the cumulative tracking
variable `lastConvertedText` is left unchanged rather than updated with the
final transcript. -/
theorem C4_low_confidence (st : ServerState) (t : String) (q : ℚ)
    (hq : q ≤ 7/10) :
    processServerFinal st t (some q)
      = ({ st with previousInterimText := "", isInitialPhaseComplete := false },
         []) := by
  have hlt : decide ((7 : ℚ)/10 < q) = false := decide_eq_false (not_lt.mpr hq)
  have hacc : confidenceAccepted (some q) = false := by
    simp only [confidenceAccepted]
    rw [hlt, Bool.and_false]
  unfold processServerFinal
  rw [if_neg (by simp [hacc])]

/-- C4 counterexample: with confidence one half (provided, below 0.7) the
final "hello world" yields no delta, but `lastConvertedText` keeps its prior
value "prev" instead of being updated with the final transcript. -/
theorem C4_counterexample :
    (processServerFinal ⟨"x", true, "prev"⟩ "hello world" (some ((1 : ℚ)/2))).2
        = [] ∧
    (processServerFinal ⟨"x", true, "prev"⟩ "hello world"
        (some ((1 : ℚ)/2))).1.lastConvertedText = "prev" ∧
    ("prev" : String) ≠ "hello world" := by
  have hlt : decide ((7 : ℚ)/10 < (1 : ℚ)/2) = false := by norm_num
  have hacc : confidenceAccepted (some ((1 : ℚ)/2)) = false := by
    simp only [confidenceAccepted]
    rw [hlt, Bool.and_false]
  refine ⟨?_, ?_, by decide⟩ <;>
    · unfold processServerFinal
      rw [if_neg (fun hcond => by rw [hacc] at hcond; exact absurd hcond.2.2 (by simp))]

/-- C4 witness: the amended theorem applied at confidence one half. -/
theorem C4_witness :
    processServerFinal ⟨"x", true, "prev"⟩ "hello" (some ((1 : ℚ)/2))
      = (⟨"", false, "prev"⟩, []) :=
  C4_low_confidence ⟨"x", true, "prev"⟩ "hello" ((1 : ℚ)/2) (by norm_num)

/-! ### Claim C5: generation-counter discard -/

/-- C5: the conversion counter is incremented before the request id is
assigned, two submissions receive strictly increasing ids, only the later
id's chunk passes the relay check in either arrival order, and in general a
response is written exactly when its id equals the current counter (stale
responses are dropped, never reordered). -/
theorem C5_generation_discard (cs : ConversionState) :
    (submitConversion cs).2 < (submitConversion (submitConversion cs).1).2 ∧
    handleResponses (submitConversion (submitConversion cs).1).1
        [(submitConversion cs).2, (submitConversion (submitConversion cs).1).2]
      = [(submitConversion (submitConversion cs).1).2] ∧
    handleResponses (submitConversion (submitConversion cs).1).1
        [(submitConversion (submitConversion cs).1).2, (submitConversion cs).2]
      = [(submitConversion (submitConversion cs).1).2] ∧
    (∀ idr, shouldSendAudio cs idr = true ↔ idr = cs.current) := by
  have e1 : shouldSendAudio ⟨cs.current + 2⟩ (cs.current + 1) = false := by
    simp [shouldSendAudio]
  have e2 : shouldSendAudio ⟨cs.current + 2⟩ (cs.current + 2) = true := by
    simp [shouldSendAudio]
  refine ⟨by simp [submitConversion], ?_, ?_, ?_⟩
  · show handleResponses ⟨cs.current + 2⟩ [cs.current + 1, cs.current + 2]
        = [cs.current + 2]
    simp [handleResponses, e1, e2]
  · show handleResponses ⟨cs.current + 2⟩ [cs.current + 2, cs.current + 1]
        = [cs.current + 2]
    simp [handleResponses, e1, e2]
  · intro idr
    show (idr == cs.current) = true ↔ idr = cs.current
    exact beq_iff_eq

/-! ### Claim C6: keepalive discipline -/

/-- C6: a keepalive frame is written exactly when the session is active and
configured with a stream and both the time since the last real text and the
time since the last keepalive exceed the threshold; the write stamps only
`lastKeepaliveTime` — never `lastTextTime`, never the reconnect counter — a
second tick within the same threshold window cannot write again, and a
successful real `addText` write (alone) resets the reconnect counter. -/
theorem C6_keepalive (now t2 : Nat) (s : TTSSession) :
    ((keepaliveTick now s).2 = true ↔
      (s.isActive = true ∧ now - s.lastTextTime > keepaliveThresholdMs ∧
       now - s.lastKeepaliveTime > keepaliveThresholdMs ∧
       s.hasStream = true ∧ s.isConfigured = true)) ∧
    ((keepaliveTick now s).2 = true →
      (keepaliveTick now s).1.lastTextTime = s.lastTextTime ∧
      (keepaliveTick now s).1.reconnectAttempts = s.reconnectAttempts ∧
      (keepaliveTick now s).1.lastKeepaliveTime = now ∧
      (keepaliveTick now s).1.stream = s.stream ++ [Frame.keepalive]) ∧
    ((keepaliveTick now s).2 = true → t2 - now ≤ keepaliveThresholdMs →
      (keepaliveTick t2 (keepaliveTick now s).1).2 = false) ∧
    (∀ txt, s.inRegistry = true → s.isActive = true → s.hasStream = true →
      s.isConfigured = true → jsTrim txt ≠ "" →
      (addText now s txt).reconnectAttempts = 0) := by
  have hchar : ∀ (n : Nat) (x : TTSSession), (keepaliveTick n x).2 = true ↔
      (x.isActive = true ∧ n - x.lastTextTime > keepaliveThresholdMs ∧
       n - x.lastKeepaliveTime > keepaliveThresholdMs ∧
       x.hasStream = true ∧ x.isConfigured = true) := by
    intro n x
    by_cases ha : x.isActive = true
    · by_cases hgap : n - x.lastTextTime > keepaliveThresholdMs ∧
          n - x.lastKeepaliveTime > keepaliveThresholdMs
      · by_cases hsc : x.hasStream = true ∧ x.isConfigured = true
        · unfold keepaliveTick
          rw [if_neg (by simp [ha]), if_pos hgap, if_pos hsc]
          simp [ha, hgap.1, hgap.2, hsc.1, hsc.2]
        · unfold keepaliveTick
          rw [if_neg (by simp [ha]), if_pos hgap, if_neg hsc]
          simp only [Prod.snd]
          constructor
          · intro hf; exact absurd hf (by simp)
          · rintro ⟨-, -, -, hs, hc⟩
            exact absurd ⟨hs, hc⟩ hsc
      · unfold keepaliveTick
        rw [if_neg (by simp [ha]), if_neg hgap]
        simp only [Prod.snd]
        constructor
        · intro hf; exact absurd hf (by simp)
        · rintro ⟨-, g1, g2, -, -⟩
          exact absurd ⟨g1, g2⟩ hgap
    · unfold keepaliveTick
      rw [if_pos ha]
      simp only [Prod.snd]
      constructor
      · intro hf; exact absurd hf (by simp)
      · rintro ⟨h, -⟩
        exact absurd h ha
  refine ⟨hchar now s, ?_, ?_, ?_⟩
  · intro hsent
    rcases (hchar now s).mp hsent with ⟨h1, h2, h3, h4, h5⟩
    unfold keepaliveTick
    rw [if_neg (by simp [h1]), if_pos ⟨h2, h3⟩, if_pos ⟨h4, h5⟩]
    exact ⟨rfl, rfl, rfl, rfl⟩
  · intro hsent hwin
    rcases (hchar now s).mp hsent with ⟨h1, h2, h3, h4, h5⟩
    have hlk : (keepaliveTick now s).1.lastKeepaliveTime = now := by
      unfold keepaliveTick
      rw [if_neg (by simp [h1]), if_pos ⟨h2, h3⟩, if_pos ⟨h4, h5⟩]
    rcases Bool.eq_false_or_eq_true (keepaliveTick t2 (keepaliveTick now s).1).2 with
      h | h
    · rcases (hchar t2 (keepaliveTick now s).1).mp h with ⟨-, -, hgap, -, -⟩
      rw [hlk] at hgap
      omega
    · exact h
  · intro txt hr ha hs hc htxt
    unfold addText
    rw [if_neg (by simp [hr, ha]), if_neg htxt, if_pos ⟨hs, hc⟩]

/-- C6 witness: a tick past the 2000 ms threshold writes a keepalive that
keeps `lastTextTime` and the reconnect counter intact, a tick 1000 ms later
does not write, and a real `addText` write does reset the counter. -/
theorem C6_witness :
    (keepaliveTick 5000
        ⟨true, true, true, true, 0, 0, 2, [Frame.config]⟩).1.lastTextTime = 0 ∧
    (keepaliveTick 5000
        ⟨true, true, true, true, 0, 0, 2, [Frame.config]⟩).1.reconnectAttempts = 2 ∧
    (keepaliveTick 6000 (keepaliveTick 5000
        ⟨true, true, true, true, 0, 0, 2, [Frame.config]⟩).1).2 = false ∧
    (addText 7000 ⟨true, true, true, true, 0, 0, 2, [Frame.config]⟩
        "hi").reconnectAttempts = 0 := by
  have h := C6_keepalive 5000 6000 ⟨true, true, true, true, 0, 0, 2, [Frame.config]⟩
  have hsent :
      (keepaliveTick 5000
        (⟨true, true, true, true, 0, 0, 2, [Frame.config]⟩ : TTSSession)).2 = true :=
    by decide
  refine ⟨(h.2.1 hsent).1, (h.2.1 hsent).2.1, h.2.2.1 hsent (by decide), ?_⟩
  exact (C6_keepalive 7000 0
      ⟨true, true, true, true, 0, 0, 2, [Frame.config]⟩).2.2.2 "hi"
    rfl rfl rfl rfl (by decide)

/-! ### Claim C7: error classification and bounded reconnection -/

/-- C7: a recoverable error (ABORTED, DEADLINE_EXCEEDED, or an abort/timeout
message) under the 3-attempt bound increments the attempt counter and
schedules a reconnect with backoff equal to the base delay times the new
attempt number, surfacing no error; the reconnect replaces the stream with a
fresh one carrying only the resent configuration frame; a non-recoverable
error or an exhausted bound leaves the session closed (inactive and
deregistered) with the error surfaced exactly once. -/
theorem C7_reconnect_policy (s : TTSSession) (e : TTSError) (now : Nat) :
    (isRecoverableError e = true → s.reconnectAttempts < maxReconnectAttempts →
      handleStreamError s e
        = ({ s with reconnectAttempts := s.reconnectAttempts + 1 },
           [TTSEvent.reconnectScheduled
              (reconnectBackoffMs * (s.reconnectAttempts + 1))])) ∧
    (s.isActive = true → s.inRegistry = true →
      (recreateStream now s).stream = [Frame.config] ∧
      (recreateStream now s).isConfigured = true ∧
      (recreateStream now s).lastTextTime = now) ∧
    ((isRecoverableError e = false ∨ maxReconnectAttempts ≤ s.reconnectAttempts) →
      (handleStreamError s e).1.isActive = false ∧
      (handleStreamError s e).1.inRegistry = false ∧
      (handleStreamError s e).2 = [TTSEvent.errorEmitted, TTSEvent.sessionEnded] ∧
      (handleStreamError s e).2.count TTSEvent.errorEmitted = 1) := by
  refine ⟨?_, ?_, ?_⟩
  · intro h1 h2
    unfold handleStreamError
    rw [if_pos ⟨h1, h2⟩]
  · intro h1 h2
    unfold recreateStream
    rw [if_neg (by simp [h1])]
    simp [sendInitialConfig, h2]
  · intro h
    have hneg : ¬(isRecoverableError e = true ∧
        s.reconnectAttempts < maxReconnectAttempts) := by
      rintro ⟨ha, hb⟩
      rcases h with h | h
      · rw [h] at ha; exact absurd ha (by simp)
      · omega
    unfold handleStreamError
    rw [if_neg hneg]
    exact ⟨rfl, rfl, rfl, rfl⟩

/-- C7 witness: the policy theorem applied to a recoverable error at attempt
one (backoff 2000 ms, no error event), to a concrete stream recreation, and
to a recoverable error arriving with the attempt bound exhausted (session
closed, error surfaced once). -/
theorem C7_witness :
    handleStreamError ⟨true, true, true, true, 0, 0, 1, [Frame.config]⟩
        ⟨some 10, "boom"⟩
      = (⟨true, true, true, true, 0, 0, 2, [Frame.config]⟩,
         [TTSEvent.reconnectScheduled 2000]) ∧
    (recreateStream 9
        ⟨true, true, true, true, 0, 0, 2,
          [Frame.config, Frame.text "a"]⟩).stream = [Frame.config] ∧
    (handleStreamError ⟨true, true, true, true, 0, 0, 3, [Frame.config]⟩
        ⟨some 10, "boom"⟩).1.isActive = false ∧
    (handleStreamError ⟨true, true, true, true, 0, 0, 3, [Frame.config]⟩
        ⟨some 10, "boom"⟩).2.count TTSEvent.errorEmitted = 1 := by
  have h1 := (C7_reconnect_policy ⟨true, true, true, true, 0, 0, 1, [Frame.config]⟩
      ⟨some 10, "boom"⟩ 0).1 (by decide) (by decide)
  have h2 := (C7_reconnect_policy
      ⟨true, true, true, true, 0, 0, 2, [Frame.config, Frame.text "a"]⟩
      ⟨some 10, "boom"⟩ 9).2.1 rfl rfl
  have h3 := (C7_reconnect_policy ⟨true, true, true, true, 0, 0, 3, [Frame.config]⟩
      ⟨some 10, "boom"⟩ 0).2.2 (Or.inr (by decide))
  exact ⟨h1.trans (by decide), h2.1, h3.1, h3.2.2.2⟩

/-! ### Claim C9: text normalization in addText -/

theorem isPunctChar_not_ws (p : Char) (hp : isPunctChar p = true) :
    isWsChar p = false := by
  simp only [isPunctChar, Bool.or_eq_true, decide_eq_true_eq] at hp
  rcases hp with (h | h) | h <;> subst h <;> decide

theorem getLast?_cons_of_ne_nil {α : Type} (c : α) (r : List α) (h : r ≠ []) :
    (c :: r).getLast? = r.getLast? := by
  cases r with
  | nil => exact absurd rfl h
  | cons y ys => simp [List.getLast?_cons_cons]

/-- The punctuation-whitespace collapse preserves a final punctuation
character. -/
theorem collapseAfterPunctAux_getLast (l : List Char) (p : Char)
    (hp : isPunctChar p = true) :
    ∀ st : Nat, l.getLast? = some p →
      (collapseAfterPunctAux st l).getLast? = some p := by
  induction l with
  | nil => intro st hl; simp at hl
  | cons c rest ih =>
    intro st hl
    cases rest with
    | nil =>
      simp only [List.getLast?_singleton, Option.some_inj] at hl
      subst hl
      have hw : isWsChar c = false := isPunctChar_not_ws c hp
      match st with
      | 0 => simp [collapseAfterPunctAux, hp]
      | 1 => simp [collapseAfterPunctAux, hp, hw]
      | Nat.succ (Nat.succ n) => simp [collapseAfterPunctAux, hp, hw]
    | cons d tl =>
      have hl2 : (d :: tl).getLast? = some p := by
        rwa [List.getLast?_cons_cons] at hl
      have hrec : ∀ st2 : Nat,
          (collapseAfterPunctAux st2 (d :: tl)).getLast? = some p :=
        fun st2 => ih st2 hl2
      have hne : ∀ st2 : Nat, collapseAfterPunctAux st2 (d :: tl) ≠ [] := by
        intro st2 hnil
        have := hrec st2
        rw [hnil] at this
        simp at this
      match st with
      | 0 =>
        by_cases hc : isPunctChar c = true
        · rw [collapseAfterPunctAux, if_pos hc,
              getLast?_cons_of_ne_nil _ _ (hne 1)]
          exact hrec 1
        · rw [collapseAfterPunctAux, if_neg hc,
              getLast?_cons_of_ne_nil _ _ (hne 0)]
          exact hrec 0
      | 1 =>
        by_cases hw : isWsChar c = true
        · rw [collapseAfterPunctAux, if_pos hw,
              getLast?_cons_of_ne_nil _ _ (hne 2)]
          exact hrec 2
        · by_cases hc : isPunctChar c = true
          · rw [collapseAfterPunctAux, if_neg hw, if_pos hc,
                getLast?_cons_of_ne_nil _ _ (hne 1)]
            exact hrec 1
          · rw [collapseAfterPunctAux, if_neg hw, if_neg hc,
                getLast?_cons_of_ne_nil _ _ (hne 0)]
            exact hrec 0
      | Nat.succ (Nat.succ n) =>
        by_cases hw : isWsChar c = true
        · rw [collapseAfterPunctAux, if_pos hw] <;> try (intro hbad; omega)
          exact hrec 2
        · by_cases hc : isPunctChar c = true
          · rw [collapseAfterPunctAux, if_neg hw, if_pos hc,
                getLast?_cons_of_ne_nil _ _ (hne 1)] <;> try (intro hbad; omega)
            exact hrec 1
          · rw [collapseAfterPunctAux, if_neg hw, if_neg hc,
                getLast?_cons_of_ne_nil _ _ (hne 0)] <;> try (intro hbad; omega)
            exact hrec 0

theorem endsWithPunct_collapse (s : String) (h : endsWithPunct s = true) :
    endsWithPunct (collapseAfterPunct s) = true := by
  unfold endsWithPunct at h ⊢
  cases hl : s.data.getLast? with
  | none => rw [hl] at h; simp at h
  | some p =>
    rw [hl] at h
    simp only at h
    have h2 := collapseAfterPunctAux_getLast s.data p h 0 hl
    unfold collapseAfterPunct
    simp only
    rw [h2]
    exact h

theorem endsWithPunct_append_period (x : String) :
    endsWithPunct (x ++ ".") = true := by
  unfold endsWithPunct
  have hd : (x ++ ".").data = x.data ++ ['.'] := rfl
  rw [hd, List.getLast?_concat]
  rfl

/-- Normalized text of a fragment of at least three space-separated fields
always ends with sentence punctuation. -/
theorem optimize_ends_punct (t : String)
    (h3 : (splitSpace (jsTrim t)).length ≥ 3) :
    endsWithPunct (optimizeTextForStreaming t) = true := by
  have key : ∀ o2 : String, endsWithPunct o2 = true →
      endsWithPunct (if o2.length > 20 then collapseAfterPunct o2 else o2)
        = true := by
    intro o2 h
    split
    · exact endsWithPunct_collapse o2 h
    · exact h
  have ho2 : endsWithPunct
      (if ¬endsWithPunct (jsTrim t) = true ∧ (splitSpace (jsTrim t)).length ≥ 3
       then jsTrim t ++ "." else jsTrim t) = true := by
    by_cases hp : endsWithPunct (jsTrim t) = true
    · rw [if_neg (by simp [hp])]
      exact hp
    · rw [if_pos ⟨hp, h3⟩]
      exact endsWithPunct_append_period _
  exact key _ ho2

/-- C9 (amended): on an in-registry, active, configured session with a
stream, `addText` writes exactly one text frame holding the normalized text,
stamping `lastTextTime` and resetting the reconnect counter, where the
normalization trims, ensures terminal punctuation only on fragments of at
least three space-separated fields, and collapses whitespace only directly
after sentence punctuation (and only for texts longer than 20 characters);
on an inactive or unconfigured session `addText` changes nothing and throws
nothing. -/
theorem C9_addText_normalization (now : Nat) (s : TTSSession) (txt : String)
    (h1 : s.inRegistry = true) (h2 : s.isActive = true)
    (h3 : s.hasStream = true) (h4 : s.isConfigured = true)
    (h5 : jsTrim txt ≠ "") :
    addText now s txt
      = { s with stream := s.stream ++ [Frame.text (optimizeTextForStreaming txt)],
                 lastTextTime := now, reconnectAttempts := 0 } ∧
    ((splitSpace (jsTrim txt)).length ≥ 3 →
      endsWithPunct (optimizeTextForStreaming txt) = true) ∧
    (∀ s2 : TTSSession, s2.isActive = false ∨ s2.isConfigured = false →
      addText now s2 txt = s2) := by
  refine ⟨?_, fun hw => optimize_ends_punct txt hw, ?_⟩
  · unfold addText
    rw [if_neg (by simp [h1, h2]), if_neg h5, if_pos ⟨h3, h4⟩]
  · intro s2 hs2
    rcases hs2 with hs2 | hs2
    · unfold addText
      rw [if_pos (Or.inr (by simp [hs2]))]
    · unfold addText
      by_cases hA : (¬s2.inRegistry = true ∨ ¬s2.isActive = true)
      · rw [if_pos hA]
      · rw [if_neg hA]
        by_cases hB : jsTrim txt = ""
        · rw [if_pos hB]
        · rw [if_neg hB, if_neg (by simp [hs2])]

/-- C9 counterexample: the two-word fragment "hello there" receives no
terminal punctuation from normalization, and on an active configured
session `addText` writes the interior whitespace run of
"hello    world from here now" uncollapsed — refuting "terminal punctuation
is ensured on multi-word fragments and internal whitespace is collapsed". -/
theorem C9_counterexample :
    optimizeTextForStreaming "hello there" = "hello there" ∧
    endsWithPunct "hello there" = false ∧
    addText 5 ⟨true, true, true, true, 0, 0, 2, [Frame.config]⟩
        "hello    world from here now"
      = ⟨true, true, true, true, 5, 0, 0,
         [Frame.config, Frame.text "hello    world from here now."]⟩ ∧
    strContains "hello    world from here now." "  " = true := by decide

/-- C9 witness: the normalization theorem applied to a three-word fragment
on a live session. -/
theorem C9_witness :
    addText 7 ⟨true, true, true, true, 0, 0, 4, [Frame.config]⟩ "one two three"
      = ⟨true, true, true, true, 7, 0, 0,
         [Frame.config, Frame.text "one two three."]⟩ ∧
    endsWithPunct (optimizeTextForStreaming "one two three") = true := by
  have h := C9_addText_normalization 7
      ⟨true, true, true, true, 0, 0, 4, [Frame.config]⟩ "one two three"
      rfl rfl rfl rfl (by decide)
  exact ⟨h.1.trans (by decide), h.2.1 (by decide)⟩

/-! ### Claim C8: no text before the handshake; no writes after close -/

/-- Reachability invariant of one session: a configured session's write log
starts with the configuration frame, an unconfigured session's current
stream has no writes at all, and a deregistered session is inactive. -/
def SessionInv (s : TTSSession) : Prop :=
  (s.isConfigured = true → s.stream.head? = some Frame.config) ∧
  (s.isConfigured = false → s.stream = []) ∧
  (s.inRegistry = false → s.isActive = false)

theorem sessionInv_sendInitialConfig (s : TTSSession) (h : SessionInv s) :
    SessionInv (sendInitialConfig s) := by
  obtain ⟨h1, h2, h3⟩ := h
  unfold sendInitialConfig
  by_cases hc : (¬s.inRegistry = true ∨ s.isConfigured = true)
  · rw [if_pos hc]
    exact ⟨h1, h2, h3⟩
  · rw [if_neg hc]
    push_neg at hc
    obtain ⟨hreg, hconf⟩ := hc
    have hcf : s.isConfigured = false := by simpa using hconf
    refine ⟨?_, ?_, ?_⟩
    · intro _
      show (s.stream ++ [Frame.config]).head? = some Frame.config
      rw [h2 hcf]
      rfl
    · intro hfalse
      have : (true : Bool) = false := hfalse
      simp at this
    · intro hrf
      have : s.inRegistry = false := hrf
      rw [hreg] at this
      simp at this

theorem sessionInv_initial (t0 : Nat) : SessionInv (initialSession t0) := by
  refine sessionInv_sendInitialConfig _ ⟨?_, ?_, ?_⟩ <;> simp

theorem sessionInv_cleanupSession (s : TTSSession) (h : SessionInv s) :
    SessionInv (cleanupSession s) := by
  obtain ⟨h1, h2, -⟩ := h
  exact ⟨h1, h2, fun _ => rfl⟩

theorem sessionInv_recreateStream (now : Nat) (s : TTSSession)
    (h : SessionInv s) : SessionInv (recreateStream now s) := by
  obtain ⟨h1, h2, h3⟩ := h
  unfold recreateStream
  by_cases ha : s.isActive = true
  · rw [if_neg (by simp [ha])]
    apply sessionInv_sendInitialConfig
    refine ⟨?_, ?_, ?_⟩
    · intro hcf
      have : (false : Bool) = true := hcf
      simp at this
    · intro _
      rfl
    · intro hrf
      exact h3 hrf
  · rw [if_pos ha]
    exact ⟨h1, h2, h3⟩

theorem sessionInv_addText (now : Nat) (txt : String) (s : TTSSession)
    (h : SessionInv s) : SessionInv (addText now s txt) := by
  obtain ⟨h1, h2, h3⟩ := h
  unfold addText
  by_cases hA : (¬s.inRegistry = true ∨ ¬s.isActive = true)
  · rw [if_pos hA]
    exact ⟨h1, h2, h3⟩
  · rw [if_neg hA]
    by_cases hB : jsTrim txt = ""
    · rw [if_pos hB]
      exact ⟨h1, h2, h3⟩
    · rw [if_neg hB]
      by_cases hC : (s.hasStream = true ∧ s.isConfigured = true)
      · rw [if_pos hC]
        have hs := h1 hC.2
        have hne : s.stream ≠ [] := by
          intro hnil
          rw [hnil] at hs
          simp at hs
        refine ⟨?_, ?_, ?_⟩
        · intro _
          show (s.stream ++ [Frame.text (optimizeTextForStreaming txt)]).head?
              = some Frame.config
          rw [List.head?_append_of_ne_nil _ hne]
          exact hs
        · intro hcf
          have : s.isConfigured = false := hcf
          rw [hC.2] at this
          simp at this
        · intro hrf
          exact h3 hrf
      · rw [if_neg hC]
        exact ⟨h1, h2, h3⟩

theorem sessionInv_keepaliveTick (now : Nat) (s : TTSSession)
    (h : SessionInv s) : SessionInv (keepaliveTick now s).1 := by
  obtain ⟨h1, h2, h3⟩ := h
  unfold keepaliveTick
  by_cases ha : s.isActive = true
  · rw [if_neg (by simp [ha])]
    by_cases hgap : (now - s.lastTextTime > keepaliveThresholdMs ∧
        now - s.lastKeepaliveTime > keepaliveThresholdMs)
    · rw [if_pos hgap]
      by_cases hsc : (s.hasStream = true ∧ s.isConfigured = true)
      · rw [if_pos hsc]
        have hs := h1 hsc.2
        have hne : s.stream ≠ [] := by
          intro hnil
          rw [hnil] at hs
          simp at hs
        refine ⟨?_, ?_, ?_⟩
        · intro _
          show (s.stream ++ [Frame.keepalive]).head? = some Frame.config
          rw [List.head?_append_of_ne_nil _ hne]
          exact hs
        · intro hcf
          have : s.isConfigured = false := hcf
          rw [hsc.2] at this
          simp at this
        · intro hrf
          exact h3 hrf
      · rw [if_neg hsc]
        exact sessionInv_recreateStream now s ⟨h1, h2, h3⟩
    · rw [if_neg hgap]
      exact ⟨h1, h2, h3⟩
  · rw [if_pos ha]
    exact ⟨h1, h2, h3⟩

theorem sessionInv_handleStreamError (s : TTSSession) (e : TTSError)
    (h : SessionInv s) : SessionInv (handleStreamError s e).1 := by
  obtain ⟨h1, h2, h3⟩ := h
  unfold handleStreamError
  split
  · exact ⟨h1, h2, h3⟩
  · exact ⟨h1, h2, fun _ => rfl⟩

theorem sessionInv_closeSession (s : TTSSession) (h : SessionInv s) :
    SessionInv (closeSession s) := by
  obtain ⟨h1, h2, h3⟩ := h
  unfold closeSession
  split
  · exact ⟨h1, h2, h3⟩
  · exact ⟨h1, h2, fun _ => rfl⟩

theorem sessionInv_applyOp (s : TTSSession) (op : SessionOp)
    (h : SessionInv s) : SessionInv (applyOp s op) := by
  cases op with
  | opAddText now txt => exact sessionInv_addText now txt s h
  | opKeepalive now => exact sessionInv_keepaliveTick now s h
  | opError e => exact sessionInv_handleStreamError s e h
  | opRecreate now => exact sessionInv_recreateStream now s h
  | opClose => exact sessionInv_closeSession s h
  | opEnd => exact sessionInv_cleanupSession s h

theorem sessionInv_runOps (s : TTSSession) (ops : List SessionOp)
    (h : SessionInv s) : SessionInv (runOps s ops) := by
  induction ops generalizing s with
  | nil => exact h
  | cons op rest ih => exact ih (applyOp s op) (sessionInv_applyOp s op h)

theorem textBeforeConfig_false_of_inv (s : TTSSession) (h : SessionInv s) :
    textBeforeConfig s.stream = false := by
  obtain ⟨h1, h2, -⟩ := h
  cases hc : s.isConfigured with
  | false =>
    rw [h2 hc]
    rfl
  | true =>
    have hh := h1 hc
    cases hs : s.stream with
    | nil => rfl
    | cons f rest =>
      rw [hs] at hh
      simp only [List.head?_cons, Option.some_inj] at hh
      rw [hh]
      rfl

theorem closed_applyOp (s : TTSSession) (op : SessionOp)
    (h1 : s.isActive = false) (h2 : s.inRegistry = false) :
    (applyOp s op).stream = s.stream ∧ (applyOp s op).isActive = false ∧
    (applyOp s op).inRegistry = false := by
  cases op with
  | opAddText now txt =>
    show (addText now s txt).stream = s.stream ∧
        (addText now s txt).isActive = false ∧
        (addText now s txt).inRegistry = false
    unfold addText
    rw [if_pos (Or.inl (by simp [h2]))]
    exact ⟨rfl, h1, h2⟩
  | opKeepalive now =>
    show ((keepaliveTick now s).1).stream = s.stream ∧
        ((keepaliveTick now s).1).isActive = false ∧
        ((keepaliveTick now s).1).inRegistry = false
    unfold keepaliveTick
    rw [if_pos (by simp [h1])]
    exact ⟨rfl, h1, h2⟩
  | opError e =>
    show ((handleStreamError s e).1).stream = s.stream ∧
        ((handleStreamError s e).1).isActive = false ∧
        ((handleStreamError s e).1).inRegistry = false
    unfold handleStreamError
    split
    · exact ⟨rfl, h1, h2⟩
    · exact ⟨rfl, rfl, rfl⟩
  | opRecreate now =>
    show (recreateStream now s).stream = s.stream ∧
        (recreateStream now s).isActive = false ∧
        (recreateStream now s).inRegistry = false
    unfold recreateStream
    rw [if_pos (by simp [h1])]
    exact ⟨rfl, h1, h2⟩
  | opClose =>
    show (closeSession s).stream = s.stream ∧
        (closeSession s).isActive = false ∧
        (closeSession s).inRegistry = false
    unfold closeSession
    rw [if_pos (by simp [h2])]
    exact ⟨rfl, h1, h2⟩
  | opEnd =>
    exact ⟨rfl, rfl, rfl⟩

theorem closed_runOps (s : TTSSession) (ops : List SessionOp)
    (h1 : s.isActive = false) (h2 : s.inRegistry = false) :
    (runOps s ops).stream = s.stream ∧ (runOps s ops).isActive = false ∧
    (runOps s ops).inRegistry = false := by
  induction ops generalizing s with
  | nil => exact ⟨rfl, h1, h2⟩
  | cons op rest ih =>
    obtain ⟨e1, e2, e3⟩ := closed_applyOp s op h1 h2
    obtain ⟨f1, f2, f3⟩ := ih (applyOp s op) e2 e3
    exact ⟨f1.trans e1, f2, f3⟩

theorem closeSession_closed (s : TTSSession) (h : SessionInv s) :
    (closeSession s).stream = s.stream ∧ (closeSession s).isActive = false ∧
    (closeSession s).inRegistry = false := by
  obtain ⟨-, -, h3⟩ := h
  unfold closeSession
  by_cases hr : s.inRegistry = true
  · rw [if_neg (by simp [hr])]
    exact ⟨rfl, rfl, rfl⟩
  · have hrf : s.inRegistry = false := by simpa using hr
    rw [if_pos (by simp [hrf])]
    exact ⟨rfl, h3 hrf, hrf⟩

/-- C8: starting from session creation, whatever sequence of lifecycle
happenings occurs (text writes, keepalive ticks, stream errors, reconnects,
closes, stream ends), no text or keepalive frame ever precedes the
configuration frame in the write log of the current stream; closing writes
nothing, and after the close no further happening — `addText` included —
writes any frame or reactivates the session. -/
theorem C8_write_safety (t0 : Nat) (ops more : List SessionOp) :
    textBeforeConfig (runOps (initialSession t0) ops).stream = false ∧
    (closeSession (runOps (initialSession t0) ops)).stream
        = (runOps (initialSession t0) ops).stream ∧
    (runOps (closeSession (runOps (initialSession t0) ops)) more).stream
        = (runOps (initialSession t0) ops).stream ∧
    (runOps (closeSession (runOps (initialSession t0) ops)) more).isActive
        = false := by
  have hinv := sessionInv_runOps _ ops (sessionInv_initial t0)
  obtain ⟨c1, c2, c3⟩ := closeSession_closed _ hinv
  obtain ⟨d1, d2, d3⟩ := closed_runOps _ more c2 c3
  exact ⟨textBeforeConfig_false_of_inv _ hinv, c1, d1.trans c1, d2⟩

end AccentConv
